import Mathlib

/-!
Verification development for the pay-vision-board face-verification flow.

The embedding follows the two source files:
  * `src/hooks/useFaceDetection.ts` — model loading state, `detectFaces`,
    `extractFaceEmbedding`, `compareFaces` (the Similarity Scorer);
  * `src/components/FaceVerification.tsx` — `startCamera`, `startVerification`
    and the `verifyFace` orchestrator (user lookup, model-readiness checks, the
    10-attempt live-extraction retry loop, reference-image resolution, the
    0.65-threshold scoring decision, the audit insert, and the delayed
    continuations `onVerified` / `onFailed`).

JavaScript numbers are modelled as real numbers; awaited `setTimeout` delays,
extraction attempts, network fetches, the audit insert and the two caller
continuations are recorded as an explicit event trace, so temporal claims
become statements about the order and multiplicity of trace events.
-/

open Classical

/-- One descriptor entry list paired with its capture timestamp
(`FaceEmbedding` in `useFaceDetection.ts`). -/
structure FaceEmbedding where
  descriptor : List ℝ
  timestamp : ℕ

/-- The running sum `Σ d1[i] * d2[i]` of the `for` loop in `compareFaces`.
The source computes `dotProduct`, `norm1`, `norm2` as three accumulators of a
single index loop over equal-length arrays; each accumulator is this sum
applied to the corresponding pair of arrays. -/
def dotL : List ℝ → List ℝ → ℝ
  | [], _ => 0
  | _, [] => 0
  | a :: as, b :: bs => a * b + dotL as bs

/-- `compareFaces` from `useFaceDetection.ts`: 0 on length mismatch, 0 when
either norm is zero, otherwise cosine similarity normalized by
`(cos + 1) / 2`. -/
noncomputable def compareFaces (embedding1 embedding2 : FaceEmbedding) : ℝ :=
  let desc1 := embedding1.descriptor
  let desc2 := embedding2.descriptor
  if desc1.length ≠ desc2.length then 0
  else
    let dotProduct := dotL desc1 desc2
    let norm1 := Real.sqrt (dotL desc1 desc1)
    let norm2 := Real.sqrt (dotL desc2 desc2)
    if norm1 = 0 ∨ norm2 = 0 then 0
    else (dotProduct / (norm1 * norm2) + 1) / 2

/-- Modelled from the spec's words (§4.2 Similarity Scorer), as the reference
definition to compare `compareFaces` against: 0 on differing lengths, 0 on a
zero norm, otherwise `(dot(a,b) / (‖a‖ * ‖b‖) + 1) / 2`. -/
noncomputable def scoreSpec (a b : List ℝ) : ℝ :=
  if a.length ≠ b.length then 0
  else if Real.sqrt (dotL a a) = 0 ∨ Real.sqrt (dotL b b) = 0 then 0
  else (dotL a b / (Real.sqrt (dotL a a) * Real.sqrt (dotL b b)) + 1) / 2

/-- One detection result of the external face-api capability: a descriptor and
a confidence score (the bounding box is not consumed by this code beyond
logging). -/
structure Face where
  descriptor : List ℝ
  score : ℝ

/-- The state observed by one call into the detection wrapper: whether model
weights finished loading (`modelsLoaded`), whether the video element exists and
reports nonzero dimensions, and what the underlying `detectAllFaces` call would
produce (`none` models a thrown error, caught by the wrapper). -/
structure DetectEnv where
  modelsLoaded : Bool
  videoPresent : Bool
  videoWidth : ℕ
  videoHeight : ℕ
  detections : Option (List Face)

/-- `detectFaces` from `useFaceDetection.ts`: returns `none` ("null") when
models are not loaded, the video element is missing or has zero dimensions, or
the detection call throws; otherwise the detected face list (possibly empty). -/
def detectFaces (env : DetectEnv) : Option (List Face) :=
  if env.modelsLoaded = false then none
  else if env.videoPresent = false then none
  else if env.videoWidth = 0 ∨ env.videoHeight = 0 then none
  else
    match env.detections with
    | none => none
    | some ds => some ds

/-- `extractFaceEmbedding` from `useFaceDetection.ts`: `null` detections or an
empty detection list both yield `none`; otherwise the first face's descriptor
is paired with the current time. -/
def extractFaceEmbedding (env : DetectEnv) (now : ℕ) : Option FaceEmbedding :=
  match detectFaces env with
  | none => none
  | some [] => none
  | some (d :: _) => some ⟨d.descriptor, now⟩

/-- One row of the `users` table as selected by `verifyFace`
(`id, name, face_embedding, face_image_url`). -/
structure UserRow where
  id : String
  name : String
  face_embedding : Option FaceEmbedding
  face_image_url : Option String

/-- Rejection reasons of the spec's taxonomy, mapped onto the failure branches
of `verifyFace`. -/
inductive Reason where
  | UserNotFound
  | NoReferenceData
  | ModelsNotReady
  | NoLiveFace
  | InvalidReference
  | NoFaceInReference
  | BelowThreshold
  deriving DecidableEq

/-- Terminal classification of one `verifyFace` run. -/
inductive Outcome where
  | Matched (userId : String)
  | Rejected (r : Reason)
  deriving DecidableEq

/-- Observable steps of one verification run, in execution order: awaited or
`setTimeout` delays (milliseconds), live extraction attempts, the reference
image fetch, the audit insert into `verification_events`, camera teardown, and
the two caller continuations. -/
inductive Event where
  | delayMs (ms : ℕ)
  | liveAttempt (n : ℕ)
  | fetchImage (url : String)
  | audit (userId rfidTag : String) (faceVerified rfidVerified : Bool)
  | stopCam
  | fireVerified (userId : String)
  | fireFailed
  deriving DecidableEq

/-- The world one `verifyFace` run executes against: the users table, whether
the lookup errored, whether the video element exists, whether the camera
acquisition succeeds, the two observed values of the hook's `isLoading` flag
(read before and after the 2000 ms grace wait), and oracles giving the result
of each live extraction attempt and of extracting from a fetched image URL
(`none` models both a rejected fetch and a no-face image). -/
structure Env where
  users : List UserRow
  lookupError : Bool
  videoPresent : Bool
  cameraOk : Bool
  detectorLoading1 : Bool
  detectorLoading2 : Bool
  liveExtract : ℕ → Option FaceEmbedding
  imageExtract : String → Option FaceEmbedding

/-- Model of JavaScript `String.prototype.startsWith`, over the character
list (kept kernel-reducible, unlike the byte-position based library
functions). -/
def prefixMatches : List Char → List Char → Bool
  | [], _ => true
  | _ :: _, [] => false
  | a :: as, b :: bs => a == b && prefixMatches as bs

/-- `s.startsWith(pre)` of JavaScript. -/
def strStartsWith (s pre : String) : Bool := prefixMatches pre.data s.data

/-- `s.endsWith(suf)` of JavaScript. -/
def strEndsWith (s suf : String) : Bool := prefixMatches suf.data.reverse s.data.reverse

/-- `s.trim()` of JavaScript: remove leading and trailing whitespace. -/
def strTrim (s : String) : String :=
  ⟨((s.data.dropWhile fun c => c.isWhitespace).reverse.dropWhile fun c =>
      c.isWhitespace).reverse⟩

/-- URL cleanup inside `verifyFace`: `trim()`, then strip one pair of
surrounding double quotes when the trimmed value both starts and ends with a
double quote (`slice(1, -1)` drops the first and last character). -/
def cleanUrl (s : String) : String :=
  let t := strTrim s
  if strStartsWith t "\"" && strEndsWith t "\"" then ⟨(t.data.drop 1).dropLast⟩ else t

/-- Shared failure tail of `verifyFace`: `setTimeout(() => stopCamera();
onFailed(), hold)` after setting the failed status. -/
def failTail (hold : ℕ) : List Event := [.delayMs hold, .stopCam, .fireFailed]

/-- Success tail of `verifyFace`: the awaited audit insert, then
`setTimeout(() => stopCamera(); onVerified(user.id), 3000)`. -/
def successTail (userId rfidTag : String) : List Event :=
  [.audit userId rfidTag true true, .delayMs 3000, .stopCam, .fireVerified userId]

/-- The `for (attempt = 1; attempt <= maxRetries; attempt++)` retry loop of
`verifyFace`: each iteration performs one extraction attempt, stops on the
first `some`, and waits 1500 ms after a failed attempt unless it was the last
one. Returns the trace of the loop and the extracted embedding, if any. -/
def attemptLoop (extract : ℕ → Option FaceEmbedding) (attempt maxRetries : ℕ) :
    List Event × Option FaceEmbedding :=
  if _h : maxRetries < attempt then ([], none)
  else
    match extract attempt with
    | some e => ([.liveAttempt attempt], some e)
    | none =>
      let rest := attemptLoop extract (attempt + 1) maxRetries
      if attempt < maxRetries then
        (.liveAttempt attempt :: .delayMs 1500 :: rest.1, rest.2)
      else
        (.liveAttempt attempt :: rest.1, rest.2)
  termination_by maxRetries + 1 - attempt
  decreasing_by omega

/-- The similarity comparison and threshold decision at the end of
`verifyFace` (`SIMILARITY_THRESHOLD = 0.65`). -/
noncomputable def scoringStep (user : UserRow) (rfidTag : String)
    (stored current : FaceEmbedding) : List Event × Option Outcome :=
  if (0.65 : ℝ) ≤ compareFaces stored current then
    (successTail user.id rfidTag, some (.Matched user.id))
  else
    (failTail 3000, some (.Rejected .BelowThreshold))

/-- Resolution of the stored reference after a live embedding was captured:
use `face_embedding` directly when present; otherwise clean the stored URL,
validate its scheme, fetch-and-extract, and only then score. The
`none`/`none` case cannot be reached from `verifyFace` (guarded earlier); in
the source it would throw on `storedEmbedding.descriptor` and land in the
outer catch, which sets the failed status with a 2000 ms hold and no
classified reason. -/
noncomputable def referencePhase (env : Env) (user : UserRow) (rfidTag : String)
    (current : FaceEmbedding) : List Event × Option Outcome :=
  match user.face_embedding with
  | some stored => scoringStep user rfidTag stored current
  | none =>
    match user.face_image_url with
    | none => (failTail 2000, none)
    | some raw =>
      let imageUrl := cleanUrl raw
      if (strStartsWith imageUrl "http://" || strStartsWith imageUrl "https://") = false then
        (failTail 3000, some (.Rejected .InvalidReference))
      else
        match env.imageExtract imageUrl with
        | none => (.fetchImage imageUrl :: failTail 2000, some (.Rejected .NoFaceInReference))
        | some stored =>
          (.fetchImage imageUrl :: (scoringStep user rfidTag stored current).1,
            (scoringStep user rfidTag stored current).2)

/-- The live-extraction part of `verifyFace`: run the 10-attempt retry loop;
if no embedding was captured, reject with `NoLiveFace` (2000 ms hold),
otherwise continue with reference resolution and scoring. -/
noncomputable def livePhase (env : Env) (user : UserRow) (rfidTag : String) :
    List Event × Option Outcome :=
  match (attemptLoop env.liveExtract 1 10).2 with
  | none => ((attemptLoop env.liveExtract 1 10).1 ++ failTail 2000,
      some (.Rejected .NoLiveFace))
  | some current => ((attemptLoop env.liveExtract 1 10).1 ++
      (referencePhase env user rfidTag current).1,
      (referencePhase env user rfidTag current).2)

/-- The model-readiness checks of `verifyFace`: wait 2000 ms if the detector
still reports loading, reject with `ModelsNotReady` if it still does, then
wait the fixed 1500 ms frame-stabilization delay and enter the retry loop. -/
noncomputable def loadingPhase (env : Env) (user : UserRow) (rfidTag : String) :
    List Event × Option Outcome :=
  let waitEvents : List Event := if env.detectorLoading1 then [.delayMs 2000] else []
  if env.detectorLoading2 then
    (waitEvents ++ failTail 2000, some (.Rejected .ModelsNotReady))
  else
    (waitEvents ++ .delayMs 1500 :: (livePhase env user rfidTag).1,
      (livePhase env user rfidTag).2)

/-- The `verifyFace` orchestrator: missing video element → immediate
`onFailed()`; lookup error or user not found → `UserNotFound`; neither stored
embedding nor image URL → `NoReferenceData`; otherwise the readiness checks,
the retry loop, reference resolution, and the threshold decision. -/
noncomputable def verifyFace (env : Env) (rfidTag : String) :
    List Event × Option Outcome :=
  if env.videoPresent = false then ([.fireFailed], none)
  else
    match env.users.find? (fun u => u.id == rfidTag), env.lookupError with
    | none, _ => (failTail 2000, some (.Rejected .UserNotFound))
    | some _, true => (failTail 2000, some (.Rejected .UserNotFound))
    | some user, false =>
      if user.face_embedding.isNone && user.face_image_url.isNone then
        (failTail 2000, some (.Rejected .NoReferenceData))
      else loadingPhase env user rfidTag

/-- `startCamera`: on `getUserMedia` failure the catch block fires `onFailed()`
immediately; on success no trace event is recorded here. -/
def startCamera (env : Env) : List Event :=
  if env.cameraOk then [] else [.fireFailed]

/-- `startVerification`: await `startCamera` (its failure does not stop the
flow), then `setTimeout(verifyFace, 3500)`. -/
noncomputable def startVerification (env : Env) (rfidTag : String) :
    List Event × Option Outcome :=
  (startCamera env ++ .delayMs 3500 :: (verifyFace env rfidTag).1,
    (verifyFace env rfidTag).2)

/-- Events produced by `count` consecutive failed attempts starting at
`start`: each failed non-final attempt is followed by the fixed 1500 ms
inter-attempt delay. -/
def attemptFailEvents (start count : ℕ) : List Event :=
  match count with
  | 0 => []
  | c + 1 => .liveAttempt start :: .delayMs 1500 :: attemptFailEvents (start + 1) c

/-- Is this event a delay? -/
def isDelay : Event → Bool
  | .delayMs _ => true
  | _ => false

/-- Is this event one of the two caller continuations firing? -/
def isFire : Event → Bool
  | .fireVerified _ => true
  | .fireFailed => true
  | _ => false

/-- Is this event a live extraction attempt? -/
def isLiveAttempt : Event → Bool
  | .liveAttempt _ => true
  | _ => false

/-- Is this event an audit insert? -/
def isAudit : Event → Bool
  | .audit _ _ _ _ => true
  | _ => false

/-- Is this event the reference-image fetch? -/
def isFetch : Event → Bool
  | .fetchImage _ => true
  | _ => false

/-- Number of continuation firings in a trace. -/
def fireCount (tr : List Event) : ℕ := tr.countP isFire

/-- Number of audit inserts in a trace. -/
def auditCount (tr : List Event) : ℕ := tr.countP isAudit

/-- Scanner: walking the trace with a flag recording whether a delay has
already occurred, check that every continuation firing happens strictly after
some delay. -/
def fireDelayScan : List Event → Bool → Bool
  | [], _ => true
  | .delayMs _ :: rest, _ => fireDelayScan rest true
  | .fireVerified _ :: rest, seen => seen && fireDelayScan rest seen
  | .fireFailed :: rest, seen => seen && fireDelayScan rest seen
  | _ :: rest, seen => fireDelayScan rest seen

/-- Every continuation firing in the trace is preceded by some delay. -/
def firesOnlyAfterDelay (tr : List Event) : Bool := fireDelayScan tr false

/-- Scanner: with a flag recording whether a live attempt has already
occurred, check that every reference-image fetch happens strictly after some
live attempt. -/
def fetchAfterAttemptScan : List Event → Bool → Bool
  | [], _ => true
  | .liveAttempt _ :: rest, _ => fetchAfterAttemptScan rest true
  | .fetchImage _ :: rest, seen => seen && fetchAfterAttemptScan rest seen
  | _ :: rest, seen => fetchAfterAttemptScan rest seen

/-- Every reference-image fetch in the trace happens after some live
extraction attempt already ran. -/
def fetchOnlyAfterAttempt (tr : List Event) : Bool := fetchAfterAttemptScan tr false

/-- Scanner: with a flag recording whether a live attempt has already
occurred, check that no reference-image fetch happens after a live attempt. -/
def fetchBeforeAttemptsScan : List Event → Bool → Bool
  | [], _ => true
  | .liveAttempt _ :: rest, _ => fetchBeforeAttemptsScan rest true
  | .fetchImage _ :: rest, seen => !seen && fetchBeforeAttemptsScan rest seen
  | _ :: rest, seen => fetchBeforeAttemptsScan rest seen

/-- The ordering the spec claims: any reference-image fetch in the trace
occurs strictly before the first live extraction attempt. -/
def resolutionPrecedesAttempts (tr : List Event) : Bool :=
  fetchBeforeAttemptsScan tr false

/-- An event that is neither a continuation firing nor an audit insert. -/
def isQuiet (e : Event) : Bool := !isFire e && !isAudit e

/-- Concrete fixture: a user whose reference is a stored descriptor. -/
def userEmb : UserRow := ⟨"tag-1", "Alice", some ⟨[1], 0⟩, none⟩

/-- Concrete fixture: a user whose reference is a stored image URL wrapped in
literal double quotes and whitespace, as C9 describes. -/
def userUrl : UserRow := ⟨"tag-2", "Bob", none, some " \"https://example.com/f.jpg\" "⟩

/-- Environment in which verification reaches the scoring step and matches:
the stored and live descriptors are both `[1]`. -/
def envMatch : Env :=
  ⟨[userEmb], false, true, true, false, false,
    fun n => if n = 1 then some ⟨[1], 9⟩ else none, fun _ => none⟩

/-- Environment whose user has only a quoted image URL; the first live attempt
and the image fetch both yield the descriptor `[1]`. -/
def envUrl : Env :=
  ⟨[userUrl], false, true, true, false, false,
    fun n => if n = 1 then some ⟨[1], 9⟩ else none, fun _ => some ⟨[1], 7⟩⟩

/-- Environment with an empty users table (lookup misses). -/
def envNoUser : Env := ⟨[], false, true, true, false, false, fun _ => none, fun _ => none⟩

/-- Environment in which camera acquisition fails but the video element is
mounted and the lookup misses. -/
def envCamFail : Env := ⟨[], false, true, false, false, false, fun _ => none, fun _ => none⟩

/-- Live-extraction oracle that succeeds exactly on attempt 3. -/
def ex3 : ℕ → Option FaceEmbedding := fun n => if n = 3 then some ⟨[1], 0⟩ else none

/-- Environment whose live extraction succeeds exactly on attempt 3. -/
def env3 : Env := ⟨[userEmb], false, true, true, false, false, ex3, fun _ => none⟩

lemma dotL_eq_sum : ∀ a b : List ℝ,
    dotL a b = ∑ i ∈ Finset.range (min a.length b.length), a.getD i 0 * b.getD i 0
  | [], b => by simp [dotL]
  | a :: as, [] => by simp [dotL]
  | x :: as, y :: bs => by
    rw [dotL, dotL_eq_sum as bs]
    rw [List.length_cons, List.length_cons, Nat.succ_min_succ, Finset.sum_range_succ']
    simp [List.getD_cons_zero, List.getD_cons_succ]
    ring

lemma dotL_self_nonneg (a : List ℝ) : 0 ≤ dotL a a := by
  rw [dotL_eq_sum, min_self]
  exact Finset.sum_nonneg fun i _ => mul_self_nonneg _

lemma dotL_self_eq_sum_sq (a : List ℝ) :
    dotL a a = ∑ i ∈ Finset.range a.length, (a.getD i 0) ^ 2 := by
  rw [dotL_eq_sum, min_self]
  exact Finset.sum_congr rfl fun i _ => (pow_two _).symm

lemma dotL_le_sqrt_mul_sqrt (a b : List ℝ) (h : a.length = b.length) :
    dotL a b ≤ Real.sqrt (dotL a a) * Real.sqrt (dotL b b) := by
  rw [dotL_eq_sum a b, dotL_self_eq_sum_sq a, dotL_self_eq_sum_sq b, h, min_self]
  exact Real.sum_mul_le_sqrt_mul_sqrt (Finset.range b.length)
    (fun i => a.getD i 0) (fun i => b.getD i 0)

lemma neg_sqrt_mul_sqrt_le_dotL (a b : List ℝ) (h : a.length = b.length) :
    -(Real.sqrt (dotL a a) * Real.sqrt (dotL b b)) ≤ dotL a b := by
  rw [dotL_eq_sum a b, dotL_self_eq_sum_sq a, dotL_self_eq_sum_sq b, h, min_self, neg_le]
  have key := Real.sum_mul_le_sqrt_mul_sqrt (Finset.range b.length)
    (fun i => a.getD i 0) (fun i => -(b.getD i 0))
  have e1 : (∑ i ∈ Finset.range b.length, a.getD i 0 * -(b.getD i 0))
      = -∑ i ∈ Finset.range b.length, a.getD i 0 * b.getD i 0 := by
    rw [← Finset.sum_neg_distrib]
    exact Finset.sum_congr rfl fun i _ => by ring
  have e2 : (∑ i ∈ Finset.range b.length, (-(b.getD i 0)) ^ 2)
      = ∑ i ∈ Finset.range b.length, (b.getD i 0) ^ 2 :=
    Finset.sum_congr rfl fun i _ => by ring
  rw [e1, e2] at key
  exact key

lemma scoreSpec_nonneg_le_one (a b : List ℝ) : 0 ≤ scoreSpec a b ∧ scoreSpec a b ≤ 1 := by
  unfold scoreSpec
  by_cases hlen : a.length ≠ b.length
  · rw [if_pos hlen]
    norm_num
  · rw [if_neg hlen]
    push_neg at hlen
    by_cases hz : Real.sqrt (dotL a a) = 0 ∨ Real.sqrt (dotL b b) = 0
    · rw [if_pos hz]
      norm_num
    · rw [if_neg hz]
      push_neg at hz
      obtain ⟨h1, h2⟩ := hz
      have n1pos : 0 < Real.sqrt (dotL a a) :=
        lt_of_le_of_ne (Real.sqrt_nonneg _) (Ne.symm h1)
      have n2pos : 0 < Real.sqrt (dotL b b) :=
        lt_of_le_of_ne (Real.sqrt_nonneg _) (Ne.symm h2)
      have hprod : 0 < Real.sqrt (dotL a a) * Real.sqrt (dotL b b) := mul_pos n1pos n2pos
      have hub := dotL_le_sqrt_mul_sqrt a b hlen
      have hlb := neg_sqrt_mul_sqrt_le_dotL a b hlen
      have hq1 : dotL a b / (Real.sqrt (dotL a a) * Real.sqrt (dotL b b)) ≤ 1 :=
        (div_le_one hprod).mpr hub
      have hq2 : -1 ≤ dotL a b / (Real.sqrt (dotL a a) * Real.sqrt (dotL b b)) := by
        rw [le_div_iff₀ hprod]
        linarith
      constructor
      · linarith
      · linarith

lemma compareFaces_eq_scoreSpec (e1 e2 : FaceEmbedding) :
    compareFaces e1 e2 = scoreSpec e1.descriptor e2.descriptor := rfl

/-- C2: `compareFaces` is a total function into `[0,1]`, equal to the spec's
reference scorer: 0 on differing lengths, 0 on a zero norm, otherwise the
normalized cosine `(dot/(‖a‖·‖b‖) + 1)/2`, with orthogonal vectors scoring
exactly `1/2`; in this embedding it is defined on every descriptor pair, so no
input shape makes it throw. -/
theorem compareFaces_matches_reference (a b : FaceEmbedding) :
    compareFaces a b = scoreSpec a.descriptor b.descriptor
    ∧ 0 ≤ compareFaces a b ∧ compareFaces a b ≤ 1
    ∧ (a.descriptor.length ≠ b.descriptor.length → compareFaces a b = 0)
    ∧ (Real.sqrt (dotL a.descriptor a.descriptor) = 0 ∨
        Real.sqrt (dotL b.descriptor b.descriptor) = 0 → compareFaces a b = 0)
    ∧ (a.descriptor.length = b.descriptor.length →
        dotL a.descriptor b.descriptor = 0 →
        Real.sqrt (dotL a.descriptor a.descriptor) ≠ 0 →
        Real.sqrt (dotL b.descriptor b.descriptor) ≠ 0 →
        compareFaces a b = 1 / 2) := by
  refine ⟨rfl, ?_, ?_, ?_, ?_, ?_⟩
  · exact (compareFaces_eq_scoreSpec a b) ▸ (scoreSpec_nonneg_le_one _ _).1
  · exact (compareFaces_eq_scoreSpec a b) ▸ (scoreSpec_nonneg_le_one _ _).2
  · intro hlen
    rw [compareFaces_eq_scoreSpec]
    unfold scoreSpec
    rw [if_pos hlen]
  · intro hz
    rw [compareFaces_eq_scoreSpec]
    unfold scoreSpec
    by_cases hlen : a.descriptor.length ≠ b.descriptor.length
    · rw [if_pos hlen]
    · rw [if_neg hlen, if_pos hz]
  · intro hlen hdot h1 h2
    rw [compareFaces_eq_scoreSpec]
    unfold scoreSpec
    rw [if_neg (by simp [hlen]), if_neg (not_or.mpr ⟨h1, h2⟩), hdot]
    norm_num

/-- C2 witness: on the concrete orthogonal pair `[1,0]`, `[0,1]` the theorem
yields the score `1/2`. -/
theorem compareFaces_matches_reference_witness :
    compareFaces ⟨[1, 0], 0⟩ ⟨[0, 1], 0⟩ = 1 / 2 :=
  (compareFaces_matches_reference ⟨[1, 0], 0⟩ ⟨[0, 1], 0⟩).2.2.2.2.2
    (by norm_num) (by norm_num [dotL]) (by norm_num [dotL, Real.sqrt_one])
    (by norm_num [dotL, Real.sqrt_one])

/-- C6 counterexample: the all-zero descriptor is equal to itself and of equal
length, yet `compareFaces` returns 0, not 1 — the zero-norm branch fires before
the cosine computation. -/
theorem compareFaces_self_counterexample :
    compareFaces ⟨[0], 0⟩ ⟨[0], 0⟩ = 0 ∧ compareFaces ⟨[0], 0⟩ ⟨[0], 0⟩ ≠ 1 := by
  have h : compareFaces ⟨[0], 0⟩ ⟨[0], 0⟩ = 0 := by
    rw [compareFaces_eq_scoreSpec]
    unfold scoreSpec
    rw [if_neg (by simp), if_pos]
    exact Or.inl (by norm_num [dotL, Real.sqrt_zero])
  exact ⟨h, by rw [h]; norm_num⟩

/-- C6 (amended): for every embedding whose descriptor has nonzero sum of
squares (equivalently, nonzero norm), `compareFaces e e = 1`; the all-zero
descriptor is excluded because the zero-norm guard returns 0 for it. -/
theorem compareFaces_self_eq_one (e : FaceEmbedding)
    (h : dotL e.descriptor e.descriptor ≠ 0) : compareFaces e e = 1 := by
  rw [compareFaces_eq_scoreSpec]
  unfold scoreSpec
  have hnn := dotL_self_nonneg e.descriptor
  have hpos : 0 < dotL e.descriptor e.descriptor := lt_of_le_of_ne hnn (Ne.symm h)
  have hsp : 0 < Real.sqrt (dotL e.descriptor e.descriptor) := Real.sqrt_pos.mpr hpos
  rw [if_neg (by simp), if_neg (not_or.mpr ⟨hsp.ne', hsp.ne'⟩),
    Real.mul_self_sqrt hnn, div_self h]
  norm_num

/-- C6 witness: the singleton descriptor `[1]` has nonzero sum of squares and
scores exactly 1 against itself. -/
theorem compareFaces_self_eq_one_witness :
    dotL [(1 : ℝ)] [(1 : ℝ)] ≠ 0 ∧ compareFaces ⟨[1], 0⟩ ⟨[1], 0⟩ = 1 :=
  ⟨by norm_num [dotL], compareFaces_self_eq_one ⟨[1], 0⟩ (by norm_num [dotL])⟩

/-- C8 counterexample: a not-ready call (models not loaded, a face in frame)
and a genuine no-face call return the identical `none` from
`extractFaceEmbedding` — the caller cannot distinguish them, contrary to the
claim. -/
theorem extractor_not_ready_counterexample :
    extractFaceEmbedding ⟨false, true, 640, 480, some [⟨[1], 1⟩]⟩ 5 =
      extractFaceEmbedding ⟨true, true, 640, 480, some []⟩ 5 ∧
    extractFaceEmbedding ⟨false, true, 640, 480, some [⟨[1], 1⟩]⟩ 5 = none := by
  constructor <;> rfl

/-- C8 (amended): the lower-level `detectFaces` distinguishes not-ready
(`none`) from no-face-detected (`some []`), but `extractFaceEmbedding`
collapses both to `none`, so at the Embedding Extractor's own interface the
two outcomes are not distinguishable. -/
theorem detect_distinguishes_not_ready (env1 env2 : DetectEnv) (now : ℕ)
    (h1 : env1.modelsLoaded = false)
    (h2 : env2.modelsLoaded = true) (h2v : env2.videoPresent = true)
    (h2w : env2.videoWidth ≠ 0) (h2h : env2.videoHeight ≠ 0)
    (h2d : env2.detections = some []) :
    detectFaces env1 = none ∧ detectFaces env2 = some [] ∧
    detectFaces env1 ≠ detectFaces env2 ∧
    extractFaceEmbedding env1 now = none ∧ extractFaceEmbedding env2 now = none := by
  have d1 : detectFaces env1 = none := by
    unfold detectFaces
    rw [h1]
    rfl
  have d2 : detectFaces env2 = some [] := by
    unfold detectFaces
    rw [h2, h2v, h2d]
    simp [h2w, h2h]
  refine ⟨d1, d2, ?_, ?_, ?_⟩
  · rw [d1, d2]
    simp
  · unfold extractFaceEmbedding
    rw [d1]
  · unfold extractFaceEmbedding
    rw [d2]

/-- C8 witness: the amended theorem applied to the two concrete environments of
the counterexample setting. -/
theorem detect_distinguishes_not_ready_witness :
    detectFaces ⟨false, true, 640, 480, some [⟨[1], 1⟩]⟩ = none ∧
    detectFaces ⟨true, true, 640, 480, some []⟩ = some [] ∧
    detectFaces ⟨false, true, 640, 480, some [⟨[1], 1⟩]⟩ ≠
      detectFaces ⟨true, true, 640, 480, some []⟩ ∧
    extractFaceEmbedding ⟨false, true, 640, 480, some [⟨[1], 1⟩]⟩ 5 = none ∧
    extractFaceEmbedding ⟨true, true, 640, 480, some []⟩ 5 = none :=
  detect_distinguishes_not_ready ⟨false, true, 640, 480, some [⟨[1], 1⟩]⟩
    ⟨true, true, 640, 480, some []⟩ 5 rfl rfl rfl (by norm_num) (by norm_num) rfl


lemma attemptLoop_mem (extract : ℕ → Option FaceEmbedding) :
    ∀ fuel attempt maxRetries, maxRetries + 1 - attempt ≤ fuel →
      ∀ e ∈ (attemptLoop extract attempt maxRetries).1,
        isLiveAttempt e = true ∨ isDelay e = true := by
  intro fuel
  induction fuel with
  | zero =>
    intro a m hm e he
    rw [attemptLoop.eq_def, dif_pos (by omega : m < a)] at he
    simp at he
  | succ f ih =>
    intro a m hm e he
    rw [attemptLoop.eq_def] at he
    by_cases hma : m < a
    · rw [dif_pos hma] at he
      simp at he
    · rw [dif_neg hma] at he
      cases hx : extract a with
      | some v =>
        simp only [hx, List.mem_cons, List.not_mem_nil, or_false] at he
        subst he
        exact Or.inl rfl
      | none =>
        simp only [hx] at he
        by_cases ham : a < m
        · simp only [if_pos ham, List.mem_cons] at he
          rcases he with rfl | rfl | he
          · exact Or.inl rfl
          · exact Or.inr rfl
          · exact ih (a + 1) m (by omega) e he
        · simp only [if_neg ham, List.mem_cons] at he
          rcases he with rfl | he
          · exact Or.inl rfl
          · exact ih (a + 1) m (by omega) e he

lemma attemptLoop_events (extract : ℕ → Option FaceEmbedding) (a m : ℕ) :
    ∀ e ∈ (attemptLoop extract a m).1, isLiveAttempt e = true ∨ isDelay e = true :=
  attemptLoop_mem extract (m + 1 - a) a m le_rfl

lemma attemptLoop_firstSuccess (extract : ℕ → Option FaceEmbedding) :
    ∀ c a m k e, k = a + c → k ≤ m → extract k = some e →
      (∀ j, a ≤ j → j < k → extract j = none) →
      attemptLoop extract a m = (attemptFailEvents a c ++ [.liveAttempt k], some e) := by
  intro c
  induction c with
  | zero =>
    intro a m k e hk hkm hx hf
    have hak : a = k := by omega
    subst hak
    rw [attemptLoop.eq_def, dif_neg (by omega : ¬ m < a)]
    simp [hx, attemptFailEvents]
  | succ c ih =>
    intro a m k e hk hkm hx hf
    have hxa : extract a = none := hf a le_rfl (by omega)
    rw [attemptLoop.eq_def, dif_neg (by omega : ¬ m < a)]
    simp only [hxa]
    rw [if_pos (show a < m by omega)]
    rw [ih (a + 1) m k e (by omega) hkm hx (fun j hj1 hj2 => hf j (by omega) hj2)]
    simp [attemptFailEvents]

lemma attemptLoop_allFail (extract : ℕ → Option FaceEmbedding) :
    ∀ c a m, m = a + c → (∀ j, a ≤ j → j ≤ m → extract j = none) →
      attemptLoop extract a m = (attemptFailEvents a c ++ [.liveAttempt m], none) := by
  intro c
  induction c with
  | zero =>
    intro a m hm hf
    have ham : a = m := by omega
    subst ham
    have hxa : extract a = none := hf a le_rfl le_rfl
    rw [attemptLoop.eq_def, dif_neg (by omega : ¬ a < a)]
    simp only [hxa]
    rw [if_neg (by omega : ¬ a < a)]
    rw [attemptLoop.eq_def, dif_pos (by omega : a < a + 1)]
    simp [attemptFailEvents]
  | succ c ih =>
    intro a m hm hf
    have hxa : extract a = none := hf a le_rfl (by omega)
    rw [attemptLoop.eq_def, dif_neg (by omega : ¬ m < a)]
    simp only [hxa]
    rw [if_pos (show a < m by omega)]
    rw [ih (a + 1) m (by omega) (fun j hj1 hj2 => hf j (by omega) hj2)]
    simp [attemptFailEvents]

lemma fireDelayScan_append (a b : List Event) : ∀ s,
    fireDelayScan (a ++ b) s = (fireDelayScan a s && fireDelayScan b (s || a.any isDelay)) := by
  induction a with
  | nil => intro s; simp [fireDelayScan]
  | cons e a ih =>
    intro s
    cases e <;> simp [fireDelayScan, isDelay, ih, Bool.and_assoc]

lemma fireDelayScan_of_noFire (a : List Event) : ∀ s,
    (∀ e ∈ a, isFire e = false) → fireDelayScan a s = true := by
  induction a with
  | nil => intro s _; rfl
  | cons e a ih =>
    intro s h
    have he := h e (List.mem_cons_self e _)
    have h2 : ∀ x ∈ a, isFire x = false := fun x hx => h x (List.mem_cons_of_mem _ hx)
    cases e with
    | delayMs n => exact ih true h2
    | fireVerified u => simp [isFire] at he
    | fireFailed => simp [isFire] at he
    | liveAttempt n => exact ih s h2
    | fetchImage u => exact ih s h2
    | audit a b c d => exact ih s h2
    | stopCam => exact ih s h2

lemma fireDelayScan_failTail (hold : ℕ) (s : Bool) :
    fireDelayScan (failTail hold) s = true := rfl

lemma fireDelayScan_successTail (userId rfidTag : String) (s : Bool) :
    fireDelayScan (successTail userId rfidTag) s = true := rfl

lemma fetchAfterAttemptScan_append (a b : List Event) : ∀ s,
    fetchAfterAttemptScan (a ++ b) s =
      (fetchAfterAttemptScan a s && fetchAfterAttemptScan b (s || a.any isLiveAttempt)) := by
  induction a with
  | nil => intro s; simp [fetchAfterAttemptScan]
  | cons e a ih =>
    intro s
    cases e <;> simp [fetchAfterAttemptScan, isLiveAttempt, ih, Bool.and_assoc]

lemma fetchAfterAttemptScan_of_noFetch (a : List Event) : ∀ s,
    (∀ e ∈ a, isFetch e = false) → fetchAfterAttemptScan a s = true := by
  induction a with
  | nil => intro s _; rfl
  | cons e a ih =>
    intro s h
    have he := h e (List.mem_cons_self e _)
    have h2 : ∀ x ∈ a, isFetch x = false := fun x hx => h x (List.mem_cons_of_mem _ hx)
    cases e with
    | delayMs n => exact ih s h2
    | fireVerified u => exact ih s h2
    | fireFailed => exact ih s h2
    | liveAttempt n => exact ih true h2
    | fetchImage u => simp [isFetch] at he
    | audit a b c d => exact ih s h2
    | stopCam => exact ih s h2

lemma fireCount_append (a b : List Event) :
    fireCount (a ++ b) = fireCount a + fireCount b := List.countP_append _ _ _

lemma auditCount_append (a b : List Event) :
    auditCount (a ++ b) = auditCount a + auditCount b := List.countP_append _ _ _

lemma fireCount_of_noFire (a : List Event) (h : ∀ e ∈ a, isFire e = false) :
    fireCount a = 0 := by
  rw [fireCount, List.countP_eq_zero]
  intro e he
  simp [h e he]

lemma auditCount_of_noAudit (a : List Event) (h : ∀ e ∈ a, isAudit e = false) :
    auditCount a = 0 := by
  rw [auditCount, List.countP_eq_zero]
  intro e he
  simp [h e he]

lemma fireCount_failTail (hold : ℕ) : fireCount (failTail hold) = 1 := rfl

lemma fireCount_successTail (userId rfidTag : String) :
    fireCount (successTail userId rfidTag) = 1 := rfl

lemma auditCount_failTail (hold : ℕ) : auditCount (failTail hold) = 0 := rfl

lemma auditCount_successTail (userId rfidTag : String) :
    auditCount (successTail userId rfidTag) = 1 := rfl

lemma isQuiet_of_attempt_or_delay (e : Event)
    (h : isLiveAttempt e = true ∨ isDelay e = true) : isQuiet e = true := by
  cases e <;> simp_all [isLiveAttempt, isDelay, isQuiet, isFire, isAudit]

lemma isQuiet_no_fire (e : Event) (h : isQuiet e = true) : isFire e = false := by
  cases e <;> simp_all [isQuiet, isFire, isAudit]

lemma isQuiet_no_audit (e : Event) (h : isQuiet e = true) : isAudit e = false := by
  cases e <;> simp_all [isQuiet, isFire, isAudit]

lemma attemptLoop_head (extract : ℕ → Option FaceEmbedding) (a m : ℕ) (h : a ≤ m) :
    ∃ rest, (attemptLoop extract a m).1 = Event.liveAttempt a :: rest := by
  rw [attemptLoop.eq_def, dif_neg (by omega : ¬ m < a)]
  cases hx : extract a with
  | some v => exact ⟨[], rfl⟩
  | none =>
    by_cases ham : a < m
    · simp only [ham, if_true]
      exact ⟨_, rfl⟩
    · simp only [ham, if_false]
      exact ⟨_, rfl⟩

lemma attemptLoop_any_attempt (extract : ℕ → Option FaceEmbedding) (a m : ℕ) (h : a ≤ m) :
    (attemptLoop extract a m).1.any isLiveAttempt = true := by
  obtain ⟨rest, hr⟩ := attemptLoop_head extract a m h
  rw [hr]
  simp [isLiveAttempt]

lemma isQuiet_waitLoop (env : Env) (extra : List Event)
    (hextra : ∀ e ∈ extra, isQuiet e = true) :
    ∀ e ∈ (if env.detectorLoading1 then [Event.delayMs 2000] else []) ++
        Event.delayMs 1500 :: ((attemptLoop env.liveExtract 1 10).1 ++ extra),
      isQuiet e = true := by
  intro e he
  rcases List.mem_append.mp he with h | h
  · cases hdl : env.detectorLoading1 <;> rw [hdl] at h
    · simp at h
    · simp at h
      subst h
      rfl
  · rcases List.mem_cons.mp h with rfl | h
    · rfl
    · rcases List.mem_append.mp h with h | h
      · exact isQuiet_of_attempt_or_delay e (attemptLoop_events _ _ _ e h)
      · exact hextra e h

lemma verifyFace_structure (env : Env) (rfidTag : String)
    (hv : env.videoPresent = true) :
    (∃ mid hold, (verifyFace env rfidTag).1 = mid ++ failTail hold ∧
      (∀ e ∈ mid, isQuiet e = true) ∧
      ∀ uid, (verifyFace env rfidTag).2 ≠ some (.Matched uid))
    ∨ (∃ mid user, env.users.find? (fun u => u.id == rfidTag) = some user ∧
        (verifyFace env rfidTag).1 = mid ++ successTail user.id rfidTag ∧
        (∀ e ∈ mid, isQuiet e = true) ∧
        (verifyFace env rfidTag).2 = some (.Matched user.id)) := by
  cases hfind : env.users.find? (fun u => u.id == rfidTag) with
  | none =>
    have hvf : verifyFace env rfidTag = (failTail 2000, some (.Rejected .UserNotFound)) := by
      simp [verifyFace, hv, hfind]
    left
    exact ⟨[], 2000, by simp [hvf], by simp, by rw [hvf]; simp⟩
  | some user =>
    cases hlerr : env.lookupError with
    | true =>
      have hvf : verifyFace env rfidTag = (failTail 2000, some (.Rejected .UserNotFound)) := by
        simp [verifyFace, hv, hfind, hlerr]
      left
      exact ⟨[], 2000, by simp [hvf], by simp, by rw [hvf]; simp⟩
    | false =>
      by_cases href : (user.face_embedding.isNone && user.face_image_url.isNone) = true
      · have hvf : verifyFace env rfidTag = (failTail 2000, some (.Rejected .NoReferenceData)) := by
          simp [verifyFace, hv, hfind, hlerr, href]
        left
        exact ⟨[], 2000, by simp [hvf], by simp, by rw [hvf]; simp⟩
      · have hvf : verifyFace env rfidTag = loadingPhase env user rfidTag := by
          simp [verifyFace, hv, hfind, hlerr, href]
        rw [hvf]
        cases hdl2 : env.detectorLoading2 with
        | true =>
          have hlp : loadingPhase env user rfidTag =
              ((if env.detectorLoading1 then [Event.delayMs 2000] else []) ++ failTail 2000,
                some (.Rejected .ModelsNotReady)) := by
            simp [loadingPhase, hdl2]
          left
          refine ⟨(if env.detectorLoading1 then [Event.delayMs 2000] else []), 2000, ?_, ?_, ?_⟩
          · rw [hlp]
          · intro e he
            cases hdl : env.detectorLoading1 <;> rw [hdl] at he
            · simp at he
            · simp at he
              subst he
              rfl
          · rw [hlp]
            simp
        | false =>
          have hlp : loadingPhase env user rfidTag =
              ((if env.detectorLoading1 then [Event.delayMs 2000] else []) ++
                Event.delayMs 1500 :: (livePhase env user rfidTag).1,
                (livePhase env user rfidTag).2) := by
            simp [loadingPhase, hdl2]
          rw [hlp]
          cases hloop : (attemptLoop env.liveExtract 1 10).2 with
          | none =>
            have hlive : livePhase env user rfidTag =
                ((attemptLoop env.liveExtract 1 10).1 ++ failTail 2000,
                  some (.Rejected .NoLiveFace)) := by
              simp [livePhase, hloop]
            left
            refine ⟨(if env.detectorLoading1 then [Event.delayMs 2000] else []) ++
              Event.delayMs 1500 :: (attemptLoop env.liveExtract 1 10).1, 2000, ?_, ?_, ?_⟩
            · rw [hlive]
              simp [List.append_assoc]
            · intro e he
              exact isQuiet_waitLoop env [] (by simp) e (by simpa using he)
            · rw [hlive]
              simp
          | some current =>
            have hlive : livePhase env user rfidTag =
                ((attemptLoop env.liveExtract 1 10).1 ++
                  (referencePhase env user rfidTag current).1,
                  (referencePhase env user rfidTag current).2) := by
              simp [livePhase, hloop]
            rw [hlive]
            cases hemb : user.face_embedding with
            | some stored =>
              have href2 : referencePhase env user rfidTag current =
                  scoringStep user rfidTag stored current := by
                simp [referencePhase, hemb]
              rw [href2]
              by_cases hthr : (0.65 : ℝ) ≤ compareFaces stored current
              · have hsc : scoringStep user rfidTag stored current =
                    (successTail user.id rfidTag, some (.Matched user.id)) := by
                  simp [scoringStep, hthr]
                right
                refine ⟨(if env.detectorLoading1 then [Event.delayMs 2000] else []) ++
                  Event.delayMs 1500 :: (attemptLoop env.liveExtract 1 10).1, user, rfl,
                  ?_, ?_, ?_⟩
                · rw [hsc]
                  simp [List.append_assoc]
                · intro e he
                  exact isQuiet_waitLoop env [] (by simp) e (by simpa using he)
                · rw [hsc]
              · have hsc : scoringStep user rfidTag stored current =
                    (failTail 3000, some (.Rejected .BelowThreshold)) := by
                  simp [scoringStep, hthr]
                left
                refine ⟨(if env.detectorLoading1 then [Event.delayMs 2000] else []) ++
                  Event.delayMs 1500 :: (attemptLoop env.liveExtract 1 10).1, 3000, ?_, ?_, ?_⟩
                · rw [hsc]
                  simp [List.append_assoc]
                · intro e he
                  exact isQuiet_waitLoop env [] (by simp) e (by simpa using he)
                · rw [hsc]
                  simp
            | none =>
              cases hurl : user.face_image_url with
              | none =>
                have href2 : referencePhase env user rfidTag current = (failTail 2000, none) := by
                  simp [referencePhase, hemb, hurl]
                rw [href2]
                left
                refine ⟨(if env.detectorLoading1 then [Event.delayMs 2000] else []) ++
                  Event.delayMs 1500 :: (attemptLoop env.liveExtract 1 10).1, 2000, ?_, ?_, ?_⟩
                · simp [List.append_assoc]
                · intro e he
                  exact isQuiet_waitLoop env [] (by simp) e (by simpa using he)
                · simp
              | some raw =>
                by_cases hscheme : (strStartsWith (cleanUrl raw) "http://" ||
                    strStartsWith (cleanUrl raw) "https://") = false
                · have href2 : referencePhase env user rfidTag current =
                      (failTail 3000, some (.Rejected .InvalidReference)) := by
                    simp [referencePhase, hemb, hurl, hscheme]
                  rw [href2]
                  left
                  refine ⟨(if env.detectorLoading1 then [Event.delayMs 2000] else []) ++
                    Event.delayMs 1500 :: (attemptLoop env.liveExtract 1 10).1, 3000, ?_, ?_, ?_⟩
                  · simp [List.append_assoc]
                  · intro e he
                    exact isQuiet_waitLoop env [] (by simp) e (by simpa using he)
                  · simp
                · have hscheme2 : (strStartsWith (cleanUrl raw) "http://" ||
                      strStartsWith (cleanUrl raw) "https://") = true := by
                    revert hscheme
                    cases strStartsWith (cleanUrl raw) "http://" ||
                      strStartsWith (cleanUrl raw) "https://" <;> simp
                  cases himg : env.imageExtract (cleanUrl raw) with
                  | none =>
                    have href2 : referencePhase env user rfidTag current =
                        (Event.fetchImage (cleanUrl raw) :: failTail 2000,
                          some (.Rejected .NoFaceInReference)) := by
                      simp [referencePhase, hemb, hurl, hscheme2, himg]
                    rw [href2]
                    left
                    refine ⟨(if env.detectorLoading1 then [Event.delayMs 2000] else []) ++
                      Event.delayMs 1500 :: ((attemptLoop env.liveExtract 1 10).1 ++
                        [Event.fetchImage (cleanUrl raw)]), 2000, ?_, ?_, ?_⟩
                    · simp [List.append_assoc]
                    · intro e he
                      refine isQuiet_waitLoop env [Event.fetchImage (cleanUrl raw)] ?_ e he
                      intro x hx
                      simp at hx
                      subst hx
                      rfl
                    · simp
                  | some stored =>
                    have href2 : referencePhase env user rfidTag current =
                        (Event.fetchImage (cleanUrl raw) ::
                          (scoringStep user rfidTag stored current).1,
                          (scoringStep user rfidTag stored current).2) := by
                      simp [referencePhase, hemb, hurl, hscheme2, himg]
                    rw [href2]
                    by_cases hthr : (0.65 : ℝ) ≤ compareFaces stored current
                    · have hsc : scoringStep user rfidTag stored current =
                          (successTail user.id rfidTag, some (.Matched user.id)) := by
                        simp [scoringStep, hthr]
                      right
                      refine ⟨(if env.detectorLoading1 then [Event.delayMs 2000] else []) ++
                        Event.delayMs 1500 :: ((attemptLoop env.liveExtract 1 10).1 ++
                          [Event.fetchImage (cleanUrl raw)]), user, rfl, ?_, ?_, ?_⟩
                      · rw [hsc]
                        simp [List.append_assoc]
                      · intro e he
                        refine isQuiet_waitLoop env [Event.fetchImage (cleanUrl raw)] ?_ e he
                        intro x hx
                        simp at hx
                        subst hx
                        rfl
                      · rw [hsc]
                    · have hsc : scoringStep user rfidTag stored current =
                          (failTail 3000, some (.Rejected .BelowThreshold)) := by
                        simp [scoringStep, hthr]
                      left
                      refine ⟨(if env.detectorLoading1 then [Event.delayMs 2000] else []) ++
                        Event.delayMs 1500 :: ((attemptLoop env.liveExtract 1 10).1 ++
                          [Event.fetchImage (cleanUrl raw)]), 3000, ?_, ?_, ?_⟩
                      · rw [hsc]
                        simp [List.append_assoc]
                      · intro e he
                        refine isQuiet_waitLoop env [Event.fetchImage (cleanUrl raw)] ?_ e he
                        intro x hx
                        simp at hx
                        subst hx
                        rfl
                      · rw [hsc]
                        simp

lemma scoreSpec_one : scoreSpec [(1 : ℝ)] [(1 : ℝ)] = 1 := by
  unfold scoreSpec
  rw [if_neg (by simp)]
  have h1 : dotL [(1 : ℝ)] [(1 : ℝ)] = 1 := by norm_num [dotL]
  rw [h1, Real.sqrt_one, if_neg (by norm_num)]
  norm_num

lemma compareFaces_one (t s : ℕ) : compareFaces ⟨[1], t⟩ ⟨[1], s⟩ = 1 := by
  rw [compareFaces_eq_scoreSpec]
  exact scoreSpec_one

lemma attemptLoop_envMatch :
    attemptLoop envMatch.liveExtract 1 10 = ([Event.liveAttempt 1], some ⟨[1], 9⟩) := by
  rw [attemptLoop.eq_def]
  simp [envMatch]

lemma scoringStep_userEmb :
    scoringStep userEmb "tag-1" ⟨[1], 0⟩ ⟨[1], 9⟩ =
      (successTail "tag-1" "tag-1", some (.Matched "tag-1")) := by
  unfold scoringStep
  rw [compareFaces_one, if_pos (by norm_num : (0.65 : ℝ) ≤ 1)]
  rfl

lemma verifyFace_envMatch :
    verifyFace envMatch "tag-1" =
      ([Event.delayMs 1500, Event.liveAttempt 1, Event.audit "tag-1" "tag-1" true true,
        Event.delayMs 3000, Event.stopCam, Event.fireVerified "tag-1"],
        some (.Matched "tag-1")) := by
  have hfind : envMatch.users.find? (fun u => u.id == "tag-1") = some userEmb := rfl
  have h1 : verifyFace envMatch "tag-1" = loadingPhase envMatch userEmb "tag-1" := by
    simp [verifyFace, hfind]
    rfl
  have h3 : livePhase envMatch userEmb "tag-1" =
      ([Event.liveAttempt 1] ++ (referencePhase envMatch userEmb "tag-1" ⟨[1], 9⟩).1,
        (referencePhase envMatch userEmb "tag-1" ⟨[1], 9⟩).2) := by
    simp [livePhase, attemptLoop_envMatch]
  have h4 : referencePhase envMatch userEmb "tag-1" ⟨[1], 9⟩ =
      (successTail "tag-1" "tag-1", some (.Matched "tag-1")) := by
    have hembx : userEmb.face_embedding = some ⟨[1], 0⟩ := rfl
    simp [referencePhase, hembx, scoringStep_userEmb]
  rw [h1]
  have h2 : loadingPhase envMatch userEmb "tag-1" =
      (Event.delayMs 1500 :: (livePhase envMatch userEmb "tag-1").1,
        (livePhase envMatch userEmb "tag-1").2) := by
    simp [loadingPhase]
    rfl
  rw [h2, h3, h4]
  simp [successTail]

/-- C5 counterexample: with the camera acquisition failing and the lookup
missing, `startCamera` fires `onFailed` immediately (before any delay) and
`startVerification` still runs `verifyFace`, which fires `onFailed` a second
time — refuting "exactly one continuation, exactly once, only after the
display-hold delay". -/
theorem continuation_fire_counterexample :
    (startVerification envCamFail "tag-0").1 =
      [Event.fireFailed, Event.delayMs 3500, Event.delayMs 2000, Event.stopCam,
        Event.fireFailed] ∧
    fireCount (startVerification envCamFail "tag-0").1 = 2 ∧
    firesOnlyAfterDelay (startVerification envCamFail "tag-0").1 = false := by
  have htr : (startVerification envCamFail "tag-0").1 =
      [Event.fireFailed, Event.delayMs 3500, Event.delayMs 2000, Event.stopCam,
        Event.fireFailed] := by
    simp [startVerification, startCamera, verifyFace, envCamFail, failTail]
  refine ⟨htr, ?_, ?_⟩ <;> rw [htr] <;> rfl

/-- C5 (amended): within `verifyFace` itself — whenever the video element is
present — exactly one continuation fires, exactly once, and only after a
delay; the violation of the original claim is confined to the camera-failure
path of `startCamera`, which fires `onFailed` immediately and lets
`startVerification` proceed to a possible second firing. -/
theorem verifyFace_fires_exactly_once (env : Env) (rfidTag : String)
    (hv : env.videoPresent = true) :
    fireCount (verifyFace env rfidTag).1 = 1 ∧
    firesOnlyAfterDelay (verifyFace env rfidTag).1 = true := by
  rcases verifyFace_structure env rfidTag hv with
    ⟨mid, hold, htr, hq, _⟩ | ⟨mid, user, _, htr, hq, _⟩
  · rw [htr]
    constructor
    · rw [fireCount_append,
        fireCount_of_noFire mid (fun e he => isQuiet_no_fire e (hq e he)),
        fireCount_failTail]
    · rw [firesOnlyAfterDelay, fireDelayScan_append,
        fireDelayScan_of_noFire mid false (fun e he => isQuiet_no_fire e (hq e he)),
        fireDelayScan_failTail]
      rfl
  · rw [htr]
    constructor
    · rw [fireCount_append,
        fireCount_of_noFire mid (fun e he => isQuiet_no_fire e (hq e he)),
        fireCount_successTail]
    · rw [firesOnlyAfterDelay, fireDelayScan_append,
        fireDelayScan_of_noFire mid false (fun e he => isQuiet_no_fire e (hq e he)),
        fireDelayScan_successTail]
      rfl

/-- C5 witness: the amended theorem evaluated on a concrete run (user lookup
misses): one firing, after the display-hold delay. -/
theorem verifyFace_fires_exactly_once_witness :
    fireCount (verifyFace envNoUser "tag-9").1 = 1 ∧
    firesOnlyAfterDelay (verifyFace envNoUser "tag-9").1 = true :=
  verifyFace_fires_exactly_once envNoUser "tag-9" rfl

/-- C7: the audit insert into `verification_events` (user id, tag, both checks
`true`) happens exactly on the `Matched` terminal state; every rejection path
— and the no-video path — leaves the audit store untouched. -/
theorem audit_only_on_match (env : Env) (rfidTag : String) :
    (∀ uid, (verifyFace env rfidTag).2 = some (.Matched uid) →
      auditCount (verifyFace env rfidTag).1 = 1 ∧
      Event.audit uid rfidTag true true ∈ (verifyFace env rfidTag).1) ∧
    ((∀ uid, (verifyFace env rfidTag).2 ≠ some (.Matched uid)) →
      auditCount (verifyFace env rfidTag).1 = 0) := by
  by_cases hv : env.videoPresent = true
  · rcases verifyFace_structure env rfidTag hv with
      ⟨mid, hold, htr, hq, hout⟩ | ⟨mid, user, hfind, htr, hq, hout⟩
    · constructor
      · intro uid h
        exact absurd h (hout uid)
      · intro _
        rw [htr, auditCount_append,
          auditCount_of_noAudit mid (fun e he => isQuiet_no_audit e (hq e he)),
          auditCount_failTail]
    · constructor
      · intro uid h
        rw [hout] at h
        have huid : user.id = uid := by
          injection h with h2
          injection h2
        constructor
        · rw [htr, auditCount_append,
            auditCount_of_noAudit mid (fun e he => isQuiet_no_audit e (hq e he)),
            auditCount_successTail]
        · rw [htr, ← huid]
          exact List.mem_append_right _ (by simp [successTail])
      · intro hno
        exact absurd hout (hno user.id)
  · have hv2 : env.videoPresent = false := by
      revert hv
      cases env.videoPresent <;> simp
    have hvf : verifyFace env rfidTag = ([.fireFailed], none) := by
      simp [verifyFace, hv2]
    constructor
    · intro uid h
      rw [hvf] at h
      simp at h
    · intro _
      rw [hvf]
      rfl

/-- C7 witness: on the concrete matching run, the theorem yields exactly one
audit event carrying the user id, the tag, and both flags true. -/
theorem audit_only_on_match_witness :
    auditCount (verifyFace envMatch "tag-1").1 = 1 ∧
    Event.audit "tag-1" "tag-1" true true ∈ (verifyFace envMatch "tag-1").1 :=
  (audit_only_on_match envMatch "tag-1").1 "tag-1" (by rw [verifyFace_envMatch])

/-- C10: the user record is looked up with `.eq('id', rfidTag)`, so whenever
the outcome is `Matched uid` — and whenever `onVerified` fires with `uid` —
the delivered user id equals the presented RFID tag. -/
theorem verified_id_equals_tag (env : Env) (rfidTag uid : String) :
    ((verifyFace env rfidTag).2 = some (.Matched uid) → uid = rfidTag) ∧
    (Event.fireVerified uid ∈ (verifyFace env rfidTag).1 → uid = rfidTag) := by
  by_cases hv : env.videoPresent = true
  · rcases verifyFace_structure env rfidTag hv with
      ⟨mid, hold, htr, hq, hout⟩ | ⟨mid, user, hfind, htr, hq, hout⟩
    · constructor
      · intro h
        exact absurd h (hout uid)
      · intro h
        rw [htr] at h
        rcases List.mem_append.mp h with h | h
        · have := isQuiet_no_fire _ (hq _ h)
          simp [isFire] at this
        · simp [failTail] at h
    · have hid : user.id = rfidTag := by
        have hp := List.find?_some hfind
        exact eq_of_beq hp
      constructor
      · intro h
        rw [hout] at h
        injection h with h2
        injection h2 with h3
        rw [← h3, hid]
      · intro h
        rw [htr] at h
        rcases List.mem_append.mp h with h | h
        · have := isQuiet_no_fire _ (hq _ h)
          simp [isFire] at this
        · simp [successTail] at h
          rw [h, hid]
  · have hv2 : env.videoPresent = false := by
      revert hv
      cases env.videoPresent <;> simp
    have hvf : verifyFace env rfidTag = ([.fireFailed], none) := by
      simp [verifyFace, hv2]
    constructor
    · intro h
      rw [hvf] at h
      simp at h
    · intro h
      rw [hvf] at h
      simp at h

/-- C10 witness: on the concrete matching run both parts of the theorem
deliver the tag itself. -/
theorem verified_id_equals_tag_witness : "tag-1" = "tag-1" ∧ "tag-1" = "tag-1" :=
  ⟨(verified_id_equals_tag envMatch "tag-1" "tag-1").1 (by rw [verifyFace_envMatch]),
    (verified_id_equals_tag envMatch "tag-1" "tag-1").2
      (by rw [verifyFace_envMatch]; simp)⟩

/-- C1: whenever the run reaches the scoring step (here: stored descriptor
present, detector ready, first live attempt succeeds), similarity at or above
the 0.65 threshold gives the `Matched` terminal with `onVerified(user.id)`
firing, and similarity strictly below gives `Rejected BelowThreshold` with
`onFailed` firing. -/
theorem scoring_threshold_decides (env : Env) (rfidTag : String) (user : UserRow)
    (stored live : FaceEmbedding)
    (hv : env.videoPresent = true)
    (hfind : env.users.find? (fun u => u.id == rfidTag) = some user)
    (hlerr : env.lookupError = false)
    (hemb : user.face_embedding = some stored)
    (hdl1 : env.detectorLoading1 = false)
    (hdl2 : env.detectorLoading2 = false)
    (hlive : env.liveExtract 1 = some live) :
    ((0.65 : ℝ) ≤ compareFaces stored live →
      verifyFace env rfidTag =
        (Event.delayMs 1500 :: Event.liveAttempt 1 :: successTail user.id rfidTag,
          some (.Matched user.id))) ∧
    (compareFaces stored live < 0.65 →
      verifyFace env rfidTag =
        (Event.delayMs 1500 :: Event.liveAttempt 1 :: failTail 3000,
          some (.Rejected .BelowThreshold))) := by
  have hrefcond : (user.face_embedding.isNone && user.face_image_url.isNone) = false := by
    rw [hemb]
    rfl
  have h1 : verifyFace env rfidTag = loadingPhase env user rfidTag := by
    simp [verifyFace, hv, hfind, hlerr, hrefcond]
  have hloop : attemptLoop env.liveExtract 1 10 = ([Event.liveAttempt 1], some live) := by
    rw [attemptLoop.eq_def]
    simp [hlive]
  have h2 : loadingPhase env user rfidTag =
      (Event.delayMs 1500 :: (livePhase env user rfidTag).1,
        (livePhase env user rfidTag).2) := by
    simp [loadingPhase, hdl1, hdl2]
  have h3 : livePhase env user rfidTag =
      ([Event.liveAttempt 1] ++ (referencePhase env user rfidTag live).1,
        (referencePhase env user rfidTag live).2) := by
    simp [livePhase, hloop]
  have h4 : referencePhase env user rfidTag live = scoringStep user rfidTag stored live := by
    simp [referencePhase, hemb]
  constructor
  · intro hthr
    have hsc : scoringStep user rfidTag stored live =
        (successTail user.id rfidTag, some (.Matched user.id)) := by
      simp [scoringStep, hthr]
    rw [h1, h2, h3, h4, hsc]
    simp
  · intro hthr
    have hthr2 : ¬ (0.65 : ℝ) ≤ compareFaces stored live := not_le.mpr hthr
    have hsc : scoringStep user rfidTag stored live =
        (failTail 3000, some (.Rejected .BelowThreshold)) := by
      simp [scoringStep, hthr2]
    rw [h1, h2, h3, h4, hsc]
    simp

/-- C1 witness: the matching branch of the theorem on the concrete
environment with identical stored and live descriptors `[1]`. -/
theorem scoring_threshold_decides_witness :
    verifyFace envMatch "tag-1" =
      (Event.delayMs 1500 :: Event.liveAttempt 1 :: successTail "tag-1" "tag-1",
        some (.Matched "tag-1")) :=
  (scoring_threshold_decides envMatch "tag-1" userEmb ⟨[1], 0⟩ ⟨[1], 9⟩
    rfl rfl rfl rfl rfl rfl rfl).1 (by rw [compareFaces_one]; norm_num)

/-- C3: the retry loop has a fixed budget of 10 attempts; it exits on the
first successful extraction with no delay after the successful attempt, waits
the fixed 1500 ms between consecutive failed attempts except after the last,
and if all 10 attempts fail the terminal outcome is `Rejected NoLiveFace` with
`onFailed` firing exactly once. -/
theorem retry_loop_budget (env : Env) (rfidTag : String) (user : UserRow) :
    (∀ k e, 1 ≤ k → k ≤ 10 → env.liveExtract k = some e →
      (∀ j, 1 ≤ j → j < k → env.liveExtract j = none) →
      attemptLoop env.liveExtract 1 10 =
        (attemptFailEvents 1 (k - 1) ++ [Event.liveAttempt k], some e)) ∧
    ((∀ j, 1 ≤ j → j ≤ 10 → env.liveExtract j = none) →
      attemptLoop env.liveExtract 1 10 =
        (attemptFailEvents 1 9 ++ [Event.liveAttempt 10], none)) ∧
    (env.videoPresent = true →
      env.users.find? (fun u => u.id == rfidTag) = some user →
      env.lookupError = false →
      (user.face_embedding.isNone && user.face_image_url.isNone) = false →
      env.detectorLoading2 = false →
      (∀ j, 1 ≤ j → j ≤ 10 → env.liveExtract j = none) →
      (verifyFace env rfidTag).2 = some (.Rejected .NoLiveFace) ∧
      fireCount (verifyFace env rfidTag).1 = 1) := by
  refine ⟨?_, ?_, ?_⟩
  · intro k e hk1 hk10 hx hf
    exact attemptLoop_firstSuccess env.liveExtract (k - 1) 1 10 k e (by omega) hk10 hx
      (fun j hj1 hj2 => hf j hj1 hj2)
  · intro hf
    exact attemptLoop_allFail env.liveExtract 9 1 10 (by omega)
      (fun j hj1 hj2 => hf j hj1 hj2)
  · intro hv hfind hlerr hrefcond hdl2 hf
    have h1 : verifyFace env rfidTag = loadingPhase env user rfidTag := by
      simp [verifyFace, hv, hfind, hlerr, hrefcond]
    have hloop : attemptLoop env.liveExtract 1 10 =
        (attemptFailEvents 1 9 ++ [Event.liveAttempt 10], none) :=
      attemptLoop_allFail env.liveExtract 9 1 10 (by omega)
        (fun j hj1 hj2 => hf j hj1 hj2)
    have h3 : livePhase env user rfidTag =
        ((attemptLoop env.liveExtract 1 10).1 ++ failTail 2000,
          some (.Rejected .NoLiveFace)) := by
      simp [livePhase, hloop]
    have h2 : loadingPhase env user rfidTag =
        ((if env.detectorLoading1 then [Event.delayMs 2000] else []) ++
          Event.delayMs 1500 :: (livePhase env user rfidTag).1,
          (livePhase env user rfidTag).2) := by
      simp [loadingPhase, hdl2]
    have hw : fireCount (if env.detectorLoading1 then [Event.delayMs 2000] else []) = 0 := by
      cases env.detectorLoading1 <;> rfl
    have hl : fireCount (attemptLoop env.liveExtract 1 10).1 = 0 :=
      fireCount_of_noFire _ (fun e he => isQuiet_no_fire e
        (isQuiet_of_attempt_or_delay e (attemptLoop_events _ _ _ e he)))
    rw [h1, h2, h3]
    constructor
    · simp
    · have hinner : fireCount ((attemptLoop env.liveExtract 1 10).1 ++ failTail 2000) = 1 := by
        rw [fireCount_append, hl, fireCount_failTail]
      have hcons : fireCount (Event.delayMs 1500 ::
          ((attemptLoop env.liveExtract 1 10).1 ++ failTail 2000)) = 1 := by
        simpa [fireCount, List.countP_cons, isFire] using hinner
      simp only [Prod.fst]
      rw [fireCount_append, hw, hcons]

/-- C3 witness: with an oracle succeeding exactly on attempt 3, the theorem
yields attempts 1, 2 (each followed by the 1500 ms delay) and 3, with no
trailing delay. -/
theorem retry_loop_budget_witness :
    attemptLoop env3.liveExtract 1 10 =
      (attemptFailEvents 1 2 ++ [Event.liveAttempt 3], some ⟨[1], 0⟩) :=
  (retry_loop_budget env3 "tag-1" userEmb).1 3 ⟨[1], 0⟩ (by norm_num) (by norm_num) rfl
    (by
      intro j hj1 hj2
      interval_cases j <;> rfl)

lemma fetchScan_failTail (hold : ℕ) (s : Bool) :
    fetchAfterAttemptScan (failTail hold) s = true := rfl

lemma fetchScan_successTail (userId rfidTag : String) (s : Bool) :
    fetchAfterAttemptScan (successTail userId rfidTag) s = true := rfl

lemma fetchScan_scoring (user : UserRow) (rfidTag : String)
    (stored current : FaceEmbedding) (s : Bool) :
    fetchAfterAttemptScan (scoringStep user rfidTag stored current).1 s = true := by
  unfold scoringStep
  by_cases h : (0.65 : ℝ) ≤ compareFaces stored current
  · rw [if_pos h]
    exact fetchScan_successTail _ _ _
  · rw [if_neg h]
    exact fetchScan_failTail _ _

lemma fetchScan_ref (env : Env) (user : UserRow) (rfidTag : String)
    (current : FaceEmbedding) :
    fetchAfterAttemptScan (referencePhase env user rfidTag current).1 true = true := by
  unfold referencePhase
  cases user.face_embedding with
  | some stored => exact fetchScan_scoring _ _ _ _ _
  | none =>
    cases user.face_image_url with
    | none => exact fetchScan_failTail _ _
    | some raw =>
      by_cases hs : ((strStartsWith (cleanUrl raw) "http://" ||
          strStartsWith (cleanUrl raw) "https://") = false)
      · simp only [hs, if_true]
        exact fetchScan_failTail _ _
      · simp only [hs, if_false]
        cases env.imageExtract (cleanUrl raw) with
        | none =>
          show (true && fetchAfterAttemptScan (failTail 2000) true) = true
          rw [fetchScan_failTail]
          rfl
        | some stored =>
          show (true && fetchAfterAttemptScan (scoringStep user rfidTag stored current).1
            true) = true
          rw [fetchScan_scoring]
          rfl

lemma fetchScan_live (env : Env) (user : UserRow) (rfidTag : String) :
    fetchAfterAttemptScan (livePhase env user rfidTag).1 false = true := by
  have hnf : ∀ e ∈ (attemptLoop env.liveExtract 1 10).1, isFetch e = false := by
    intro e he
    rcases attemptLoop_events _ _ _ e he with h | h <;>
      cases e <;> simp_all [isLiveAttempt, isDelay, isFetch]
  unfold livePhase
  cases (attemptLoop env.liveExtract 1 10).2 with
  | none =>
    show fetchAfterAttemptScan ((attemptLoop env.liveExtract 1 10).1 ++ failTail 2000)
      false = true
    rw [fetchAfterAttemptScan_append, fetchAfterAttemptScan_of_noFetch _ false hnf]
    cases h2 : ((false || (attemptLoop env.liveExtract 1 10).1.any isLiveAttempt)) <;>
      simp [fetchScan_failTail]
  | some current =>
    show fetchAfterAttemptScan ((attemptLoop env.liveExtract 1 10).1 ++
      (referencePhase env user rfidTag current).1) false = true
    rw [fetchAfterAttemptScan_append, fetchAfterAttemptScan_of_noFetch _ false hnf]
    have hany : (attemptLoop env.liveExtract 1 10).1.any isLiveAttempt = true :=
      attemptLoop_any_attempt env.liveExtract 1 10 (by norm_num)
    rw [hany]
    simp [fetchScan_ref env user rfidTag current]

lemma fetchScan_loading (env : Env) (user : UserRow) (rfidTag : String) :
    fetchAfterAttemptScan (loadingPhase env user rfidTag).1 false = true := by
  unfold loadingPhase
  cases hdl2 : env.detectorLoading2 with
  | true =>
    simp only [if_true]
    cases env.detectorLoading1 <;> rfl
  | false =>
    simp only [if_false]
    show fetchAfterAttemptScan
      ((if env.detectorLoading1 then [Event.delayMs 2000] else []) ++
        Event.delayMs 1500 :: (livePhase env user rfidTag).1) false = true
    rw [fetchAfterAttemptScan_append]
    have hw1 : fetchAfterAttemptScan
        (if env.detectorLoading1 then [Event.delayMs 2000] else []) false = true := by
      cases env.detectorLoading1 <;> rfl
    have hw2 : (if env.detectorLoading1 then [Event.delayMs 2000] else []).any
        isLiveAttempt = false := by
      cases env.detectorLoading1 <;> rfl
    rw [hw1, hw2]
    show (true && fetchAfterAttemptScan (livePhase env user rfidTag).1 false) = true
    rw [fetchScan_live]
    rfl

/-- C4 (amended): the user-record lookup and a stored descriptor need no
fetch, and whenever the stored reference is an image URL, its fetch-and-extract
resolution happens strictly after a live extraction attempt has already run —
the reverse of the claimed ordering; it still completes before scoring. -/
theorem fetch_only_after_live_attempts (env : Env) (rfidTag : String) :
    fetchOnlyAfterAttempt (verifyFace env rfidTag).1 = true := by
  rw [fetchOnlyAfterAttempt]
  by_cases hv : env.videoPresent = true
  · cases hfind : env.users.find? (fun u => u.id == rfidTag) with
    | none =>
      have hvf : verifyFace env rfidTag = (failTail 2000, some (.Rejected .UserNotFound)) := by
        simp [verifyFace, hv, hfind]
      rw [hvf]
      rfl
    | some user =>
      cases hlerr : env.lookupError with
      | true =>
        have hvf : verifyFace env rfidTag =
            (failTail 2000, some (.Rejected .UserNotFound)) := by
          simp [verifyFace, hv, hfind, hlerr]
        rw [hvf]
        rfl
      | false =>
        by_cases href : (user.face_embedding.isNone && user.face_image_url.isNone) = true
        · have hvf : verifyFace env rfidTag =
              (failTail 2000, some (.Rejected .NoReferenceData)) := by
            simp [verifyFace, hv, hfind, hlerr, href]
          rw [hvf]
          rfl
        · have hvf : verifyFace env rfidTag = loadingPhase env user rfidTag := by
            simp [verifyFace, hv, hfind, hlerr, href]
          rw [hvf]
          exact fetchScan_loading env user rfidTag
  · have hv2 : env.videoPresent = false := by
      revert hv
      cases env.videoPresent <;> simp
    have hvf : verifyFace env rfidTag = ([.fireFailed], none) := by
      simp [verifyFace, hv2]
    rw [hvf]
    rfl

lemma attemptLoop_envUrl :
    attemptLoop envUrl.liveExtract 1 10 = ([Event.liveAttempt 1], some ⟨[1], 9⟩) := by
  rw [attemptLoop.eq_def]
  simp [envUrl]

lemma cleanUrl_envUrl :
    cleanUrl " \"https://example.com/f.jpg\" " = "https://example.com/f.jpg" := by
  rfl

lemma scoringStep_userUrl :
    scoringStep userUrl "tag-2" ⟨[1], 7⟩ ⟨[1], 9⟩ =
      (successTail "tag-2" "tag-2", some (.Matched "tag-2")) := by
  unfold scoringStep
  rw [compareFaces_one, if_pos (by norm_num : (0.65 : ℝ) ≤ 1)]
  rfl

lemma verifyFace_envUrl :
    verifyFace envUrl "tag-2" =
      ([Event.delayMs 1500, Event.liveAttempt 1,
        Event.fetchImage "https://example.com/f.jpg",
        Event.audit "tag-2" "tag-2" true true, Event.delayMs 3000, Event.stopCam,
        Event.fireVerified "tag-2"], some (.Matched "tag-2")) := by
  have hfind : envUrl.users.find? (fun u => u.id == "tag-2") = some userUrl := rfl
  have h1 : verifyFace envUrl "tag-2" = loadingPhase envUrl userUrl "tag-2" := by
    simp [verifyFace, hfind]
    rfl
  have h3 : livePhase envUrl userUrl "tag-2" =
      ([Event.liveAttempt 1] ++ (referencePhase envUrl userUrl "tag-2" ⟨[1], 9⟩).1,
        (referencePhase envUrl userUrl "tag-2" ⟨[1], 9⟩).2) := by
    simp [livePhase, attemptLoop_envUrl]
  have h4 : referencePhase envUrl userUrl "tag-2" ⟨[1], 9⟩ =
      (Event.fetchImage "https://example.com/f.jpg" :: successTail "tag-2" "tag-2",
        some (.Matched "tag-2")) := by
    have hembx : userUrl.face_embedding = none := rfl
    have hurlx : userUrl.face_image_url = some " \"https://example.com/f.jpg\" " := rfl
    have hscheme : (strStartsWith "https://example.com/f.jpg" "http://" ||
        strStartsWith "https://example.com/f.jpg" "https://") = true := rfl
    have himg : envUrl.imageExtract "https://example.com/f.jpg" = some ⟨[1], 7⟩ := rfl
    simp [referencePhase, hembx, hurlx, cleanUrl_envUrl, hscheme, himg, scoringStep_userUrl]
  rw [h1]
  have h2 : loadingPhase envUrl userUrl "tag-2" =
      (Event.delayMs 1500 :: (livePhase envUrl userUrl "tag-2").1,
        (livePhase envUrl userUrl "tag-2").2) := by
    simp [loadingPhase]
    rfl
  rw [h2, h3, h4]
  simp [successTail]

/-- C4 counterexample: with a user whose reference is a stored image URL, the
first live extraction attempt runs before the reference fetch — the trace has
`liveAttempt 1` strictly before `fetchImage`, so resolution does not complete
before the retry loop begins. -/
theorem reference_resolution_order_counterexample :
    (verifyFace envUrl "tag-2").1 =
      [Event.delayMs 1500, Event.liveAttempt 1,
        Event.fetchImage "https://example.com/f.jpg",
        Event.audit "tag-2" "tag-2" true true, Event.delayMs 3000, Event.stopCam,
        Event.fireVerified "tag-2"] ∧
    resolutionPrecedesAttempts (verifyFace envUrl "tag-2").1 = false := by
  constructor
  · rw [verifyFace_envUrl]
  · rw [verifyFace_envUrl]
    rfl

/-- C9: before scheme validation the stored URL is trimmed and exactly one
pair of surrounding double quotes is stripped, so a stored value with literal
quotes and whitespace passes the http(s) validation and is fetched with the
quotes removed. -/
theorem url_cleanup_quotes :
    cleanUrl " \"https://example.com/f.jpg\" " = "https://example.com/f.jpg" ∧
    cleanUrl "\"\"u\"\"" = "\"u\"" ∧
    strStartsWith (cleanUrl " \"https://example.com/f.jpg\" ") "https://" = true ∧
    Event.fetchImage "https://example.com/f.jpg" ∈ (verifyFace envUrl "tag-2").1 := by
  refine ⟨rfl, rfl, rfl, ?_⟩
  rw [verifyFace_envUrl]
  simp
